import Mathlib

/-!
Verification development for the formulas-audio-lab synthesizer.

The generator engine is embedded from
`assets/formula-generator.worklet-ctKEhjEJ.ts` (class
`FormulaGeneratorProcessor`): JS numbers become real numbers, the
`Math.random()` source becomes an explicit noise stream `ℕ → ℝ` together
with a cursor `noiseIdx` stored in the processor state, and the mutable
instance fields become the fields of an explicit state record that the
per-sample function threads through.

The effects chain (`src/audio/effects/EffectsChain.ts` and the individual
stage classes) is embedded as pure functions on explicit state records;
the audio-graph `connect` sequence of `EffectsChain.rebuild` is embedded
as the ordered list of stage slots inserted into the series path between
the chain input and output (each `if (state.xOn)` branch appends its slot
and advances the threaded `node` pointer).
-/

namespace FormulasAudioLab

noncomputable section

open Real

/-- The parameter names of the worklet's `FormulaParams` interface. -/
inductive ParamKey
  | gain | fc | fm | I | f1 | f2 | base | depth | r | lfoHz
  | f0 | k | fund | N | move | f | f2pm | fbeat | df | fd
  | alpha | fq | Aq | wq | sigma | rho | beta | lBase | lFreqScale | lAmp
  | ksFreq | ksDamp | ksBright | bcFreq | bcBits | bcDown | nCut
  | pinkBright | brownStep | velvetDensity
  | rossA | rossB | rossC | rossBase | rossFreqScale | rossAmp
  | shepBase | shepSpeed | shepOctaves
  deriving DecidableEq

/-- A full parameter record: every key holds a numeric value
(the worklet initializes every field in its constructor). -/
def FormulaParams : Type := ParamKey → ℝ

/-- The constructor's default parameter values (before merging
`processorOptions.params`). -/
def defaultParams : FormulaParams := fun key =>
  match key with
  | .gain => 0.2 | .fc => 220 | .fm => 2 | .I => 2
  | .f1 => 220 | .f2 => 221
  | .base => 110 | .depth => 330 | .r => 3.86 | .lfoHz => 40
  | .f0 => 55 | .k => 0.15
  | .fund => 110 | .N => 12 | .move => 0.35
  | .f => 220 | .f2pm => 3
  | .fbeat => 220 | .df => 0.8
  | .fd => 110 | .alpha => 3.0
  | .fq => 120 | .Aq => 220 | .wq => 0.8
  | .sigma => 10 | .rho => 28 | .beta => 2.6667
  | .lBase => 120 | .lFreqScale => 40 | .lAmp => 0.25
  | .ksFreq => 110 | .ksDamp => 0.985 | .ksBright => 0.5
  | .bcFreq => 220 | .bcBits => 6 | .bcDown => 8
  | .nCut => 800 | .pinkBright => 0.5 | .brownStep => 0.02
  | .velvetDensity => 2000
  | .rossA => 0.2 | .rossB => 0.2 | .rossC => 5.7
  | .rossBase => 120 | .rossFreqScale => 30 | .rossAmp => 0.25
  | .shepBase => 55 | .shepSpeed => 0.1 | .shepOctaves => 6

/-- `Object.assign(this.p, msg.params)`: apply a list of key/value
overrides, later entries winning. -/
def assignParams (p : FormulaParams) (updates : List (ParamKey × ℝ)) :
    FormulaParams :=
  updates.foldl (fun acc kv => fun q => if q = kv.1 then kv.2 else acc q) p

/-- The mutable instance state of `FormulaGeneratorProcessor`.
`noiseIdx` is the cursor into the ambient `Math.random()` stream. -/
structure GenState where
  formula : String
  sr : ℝ
  t : ℝ
  phase : ℝ
  logi : ℝ
  lx : ℝ
  ly : ℝ
  lz : ℝ
  ksBuf : Option (List ℝ)
  ksIdx : ℕ
  ksN : ℕ
  nlp : ℝ
  pinkB0 : ℝ
  pinkB1 : ℝ
  pinkB2 : ℝ
  pinkB3 : ℝ
  pinkB4 : ℝ
  pinkB5 : ℝ
  pinkB6 : ℝ
  brownVal : ℝ
  velvetCounter : ℝ
  velvetNext : ℝ
  rx : ℝ
  ry : ℝ
  rz : ℝ
  shepardPhases : List ℝ
  shepardT : ℝ
  p : FormulaParams
  noiseIdx : ℕ

/-- `clamp(x, a, b) = Math.max(a, Math.min(b, x))`. -/
def clamp (x a b : ℝ) : ℝ := max a (min b x)

/-- `initKS(force)`: (re)allocate the Karplus-Strong buffer of length
`max(2, floor(sr / max(20, ksFreq || 110)))` filled with uniform noise;
skipped when not forced and the buffer already has the target length. -/
def initKS (noise : ℕ → ℝ) (force : Bool) (st : GenState) : GenState :=
  let rawFreq := if st.p ParamKey.ksFreq = 0 then 110 else st.p ParamKey.ksFreq
  let freq := max 20 rawFreq
  let n := max 2 (⌊st.sr / freq⌋.toNat)
  if force = false ∧ st.ksBuf.isSome ∧ st.ksN = n then st
  else
    { st with
      ksN := n
      ksIdx := 0
      ksBuf := some ((List.range n).map fun i => noise (st.noiseIdx + i) * 2 - 1)
      noiseIdx := st.noiseIdx + n }

/-- `resetState()`: reinitialize every algorithm's internal state to its
documented initial condition (Lorenz to (0.1, 0, 0), Rossler to
(0.1, 0, 0), logistic to 0.33, phases and accumulators to 0, and a fresh
Karplus-Strong pluck via `initKS(true)`). -/
def resetState (noise : ℕ → ℝ) (st : GenState) : GenState :=
  let st1 := { st with
    t := 0
    phase := 0
    logi := 0.33
    lx := 0.1
    ly := 0
    lz := 0
    nlp := 0 }
  let st2 := initKS noise true st1
  { st2 with
    pinkB0 := 0
    pinkB1 := 0
    pinkB2 := 0
    pinkB3 := 0
    pinkB4 := 0
    pinkB5 := 0
    pinkB6 := 0
    brownVal := 0
    velvetCounter := 0
    velvetNext := 0
    rx := 0.1
    ry := 0
    rz := 0
    shepardPhases := List.replicate 10 0
    shepardT := 0 }

/-- `2 * Math.PI`, hoisted before the sample loop in `process`. -/
def twoPi : ℝ := 2 * Real.pi

/-- The logistic case's update period:
`Math.max(1, Math.floor(sr / Math.max(1e-3, p.lfoHz)))`. -/
def logisticStep (st : GenState) : ℕ :=
  (max 1 ⌊st.sr / max 1e-3 (st.p ParamKey.lfoHz)⌋).toNat

/-- The additive case's harmonic count `Math.max(1, Math.floor(p.N))`. -/
def additiveN (st : GenState) : ℕ := (max 1 ⌊st.p ParamKey.N⌋).toNat

/-- One body of the shepard octave loop: thread the phase bank and the
running sum for octave index `k` (octaves whose frequency exceeds 18 kHz
are skipped entirely, phase update included). -/
def shepardBody (sr baseF shepT : ℝ) (acc : List ℝ × ℝ) (k : ℕ) :
    List ℝ × ℝ :=
  let freqMult := (2 : ℝ) ^ ((k : ℝ) + shepT)
  let freq := baseF * freqMult
  if freq > 18000 then acc
  else
    let logF := Real.logb 2 freq
    let envelope := Real.exp (-0.5 * ((logF - Real.logb 2 440) / 1.5) ^ 2)
    let ph := acc.1.getD k 0 + twoPi * (freq / sr)
    let ph := if ph > twoPi then ph - twoPi else ph
    (acc.1.set k ph, acc.2 + envelope * Real.sin ph)

/-- One iteration of the sample loop body of
`FormulaGeneratorProcessor.process`, up to but not including the output
write, the time advance and the phase wrap: the `switch (this.formula)`
statement. Returns the updated state together with the raw sample `x`
(before the `* (p.gain ?? 0.2)` scaling). `i` is the loop index within
the current 128-sample processing block. -/
def formulaSample (noise : ℕ → ℝ) (i : ℕ) (st : GenState) : GenState × ℝ :=
  let p := st.p
  let sr := st.sr
  let t := st.t
  match st.formula with
  | "fm" =>
      (st, Real.sin (twoPi * p ParamKey.fc * t +
        p ParamKey.I * Real.sin (twoPi * p ParamKey.fm * t)))
  | "logistic" =>
      let step := logisticStep st
      let logi :=
        if i % step = 0 then
          clamp (p ParamKey.r * st.logi * (1 - st.logi)) 0 1
        else st.logi
      let fr := p ParamKey.base + p ParamKey.depth * (logi - 0.5)
      let phase := st.phase + twoPi * (max 0 fr / sr)
      ({ st with logi := logi, phase := phase }, Real.sin phase)
  | "gliss" =>
      let fr := p ParamKey.f0 * Real.exp (p ParamKey.k * t)
      let phase := st.phase + twoPi * (fr / sr)
      ({ st with phase := phase }, Real.sin phase)
  | "additive" =>
      let fund := p ParamKey.fund
      let n := additiveN st
      let move := p ParamKey.move
      let s := (List.range n).foldl
        (fun (s : ℝ) (j : ℕ) =>
          let k : ℕ := j + 1
          let ak := (1 / (k : ℝ)) * Real.sin (twoPi * move * t + (k : ℝ))
          s + ak * Real.sin (twoPi * ((k : ℝ) * fund) * t))
        0
      (st, s * (1.0 / Real.logb 2 ((n : ℝ) + 1)))
  | "pm" =>
      let phi := Real.sin (Real.sin (twoPi * p ParamKey.f2pm * t))
      (st, Real.sin (twoPi * p ParamKey.f * t + phi * 5.0))
  | "beats" =>
      (st, 0.5 * (Real.sin (twoPi * p ParamKey.fbeat * t) +
        Real.sin (twoPi * (p ParamKey.fbeat + p ParamKey.df) * t)))
  | "dist" =>
      (st, Real.tanh (p ParamKey.alpha * Real.sin (twoPi * p ParamKey.fd * t)))
  | "quasi" =>
      let m := Real.sin (Real.sin (Real.sin (p ParamKey.wq * t)))
      let fr := max 0 (p ParamKey.fq + p ParamKey.Aq * m)
      let phase := st.phase + twoPi * (fr / sr)
      ({ st with phase := phase }, Real.sin phase)
  | "lorenz" =>
      let dt := 1 / sr
      let dx := p ParamKey.sigma * (st.ly - st.lx)
      let dy := st.lx * (p ParamKey.rho - st.lz) - st.ly
      let dz := st.lx * st.ly - p ParamKey.beta * st.lz
      let lx := st.lx + dx * dt
      let ly := st.ly + dy * dt
      let lz := st.lz + dz * dt
      let freq := max 0 (p ParamKey.lBase + p ParamKey.lFreqScale * |lx|)
      let amp := clamp
        (p ParamKey.lAmp * (0.3 + 0.7 * (0.5 + 0.5 * Real.tanh ly))) 0 1
      let phase := st.phase + twoPi * (freq / sr)
      ({ st with lx := lx, ly := ly, lz := lz, phase := phase },
        amp * Real.sin phase)
  | "karplus" =>
      let st := initKS noise false st
      let buf := st.ksBuf.getD []
      let n := st.ksN
      let idx := st.ksIdx
      let y0 := buf.getD idx 0
      let y1 := buf.getD ((idx + 1) % n) 0
      let damp := clamp (st.p ParamKey.ksDamp) 0.8 0.99999
      let bright := clamp (st.p ParamKey.ksBright) 0 1
      let avg := 0.5 * (y0 + y1)
      let next := damp * (bright * y0 + (1 - bright) * avg)
      ({ st with ksBuf := some (buf.set idx next), ksIdx := (idx + 1) % n }, y0)
  | "noiselp" =>
      let white := noise st.noiseIdx * 2 - 1
      let cut := clamp (p ParamKey.nCut) 20 18000
      let a := 1 - Real.exp (-(2 * Real.pi * cut) / sr)
      let nlp := st.nlp + a * (white - st.nlp)
      ({ st with nlp := nlp, noiseIdx := st.noiseIdx + 1 }, nlp)
  | "pinknoise" =>
      let white := noise st.noiseIdx * 2 - 1
      let b0 := 0.99886 * st.pinkB0 + white * 0.0555179
      let b1 := 0.99332 * st.pinkB1 + white * 0.0750759
      let b2 := 0.969 * st.pinkB2 + white * 0.153852
      let b3 := 0.8665 * st.pinkB3 + white * 0.3104856
      let b4 := 0.55 * st.pinkB4 + white * 0.5329522
      let b5 := -0.7616 * st.pinkB5 - white * 0.016898
      let pink := b0 + b1 + b2 + b3 + b4 + b5 + st.pinkB6 + white * 0.5362
      let b6 := white * 0.115926
      let bright := clamp (p ParamKey.pinkBright) 0 1
      ({ st with
          pinkB0 := b0, pinkB1 := b1, pinkB2 := b2, pinkB3 := b3,
          pinkB4 := b4, pinkB5 := b5, pinkB6 := b6,
          noiseIdx := st.noiseIdx + 1 },
        pink * 0.11 * (1 - bright) + white * bright * 0.5)
  | "brownnoise" =>
      let white := noise st.noiseIdx * 2 - 1
      let step := clamp (p ParamKey.brownStep) 0.001 0.1
      let brown := clamp (st.brownVal + white * step) (-1) 1
      ({ st with brownVal := brown, noiseIdx := st.noiseIdx + 1 }, brown)
  | "velvetnoise" =>
      let density := max 100 (p ParamKey.velvetDensity)
      let avgSamples := sr / density
      if st.velvetCounter ≥ st.velvetNext then
        let x : ℝ := if noise st.noiseIdx > 0.5 then 1 else -1
        let nxt := st.velvetCounter + avgSamples * (0.5 + noise (st.noiseIdx + 1))
        ({ st with
            velvetNext := nxt, velvetCounter := st.velvetCounter + 1,
            noiseIdx := st.noiseIdx + 2 }, x)
      else
        ({ st with velvetCounter := st.velvetCounter + 1 }, 0)
  | "rossler" =>
      let dt := 1 / sr
      let a := p ParamKey.rossA
      let b := p ParamKey.rossB
      let c := p ParamKey.rossC
      let dx := -st.ry - st.rz
      let dy := st.rx + a * st.ry
      let dz := b + st.rz * (st.rx - c)
      let rx := clamp (st.rx + dx * dt * 100) (-50) 50
      let ry := clamp (st.ry + dy * dt * 100) (-50) 50
      let rz := clamp (st.rz + dz * dt * 100) (-50) 50
      let freq := max 0 (p ParamKey.rossBase + p ParamKey.rossFreqScale * rx)
      let amp := clamp
        (p ParamKey.rossAmp * (0.3 + 0.7 * (0.5 + 0.02 * ry))) 0 1
      let phase := st.phase + twoPi * (freq / sr)
      ({ st with rx := rx, ry := ry, rz := rz, phase := phase },
        amp * Real.sin phase)
  | "shepard" =>
      let baseF := max 20 (p ParamKey.shepBase)
      let speed := p ParamKey.shepSpeed
      let octaves := (max 1 (min 10 ⌊p ParamKey.shepOctaves⌋)).toNat
      let shepT := st.shepardT + speed / sr
      let shepT := if shepT > 1 then shepT - 1 else shepT
      let acc := (List.range octaves).foldl
        (shepardBody sr baseF shepT) (st.shepardPhases, 0)
      ({ st with shepardPhases := acc.1, shepardT := shepT },
        acc.2 / Real.sqrt (octaves : ℝ))
  | _ => (st, 0)

/-- One full iteration of the sample loop: the switch, the output write
`ch0[i] = x * (p.gain ?? 0.2)`, the time advance `t += 1/sr` and the
phase wrap `if (phase > 1e9) phase %= twoPi`. Returns the new state and
the sample written to the output channel. -/
def sampleStep (noise : ℕ → ℝ) (i : ℕ) (st : GenState) : GenState × ℝ :=
  let res := formulaSample noise i st
  let st1 := res.1
  let emitted := res.2 * st1.p ParamKey.gain
  let t := st1.t + 1 / st1.sr
  let phase :=
    if st1.phase > 1e9 then st1.phase - twoPi * ⌊st1.phase / twoPi⌋ else st1.phase
  ({ st1 with t := t, phase := phase }, emitted)

/-- One iteration of the block loop: run `sampleStep` for loop index `i`
on the threaded state and append the written sample to the output
channel. -/
def blockStep (noise : ℕ → ℝ) (a : GenState × List ℝ) (i : ℕ) :
    GenState × List ℝ :=
  let r := sampleStep noise i a.1
  (r.1, a.2 ++ [r.2])

/-- `process` over one block of `n` frames: runs the sample loop for
`i = 0, …, n-1`, returns the final state, the written output channel and
the boolean return value of `process` (the keep-alive flag, always
`true`). -/
def processBlock (noise : ℕ → ℝ) (st : GenState) (n : ℕ) :
    GenState × List ℝ × Bool :=
  let res := (List.range n).foldl (blockStep noise) (st, [])
  (res.1, res.2, true)

/-- The formula ids recognized by the `switch` in `process`. Note the
absence of the documented ids `am` and `bitcrush`. -/
def recognizedIds : List String :=
  ["fm", "logistic", "gliss", "additive", "pm", "beats", "dist", "quasi",
   "lorenz", "karplus", "noiselp", "pinknoise", "brownnoise", "velvetnoise",
   "rossler", "shepard"]

/-- Control messages accepted by the worklet's `port.onmessage` handler. -/
inductive WorkletMsg
  | set (params : List (ParamKey × ℝ))
  | reset

/-- The `port.onmessage` handler: a `set` message merges the partial
parameter record into `this.p` (`Object.assign`); a `reset` message calls
`resetState()`. -/
def onMessage (noise : ℕ → ℝ) (msg : WorkletMsg) (st : GenState) : GenState :=
  match msg with
  | .set updates => { st with p := assignParams st.p updates }
  | .reset => resetState noise st

/-- `AudioEngine.enableFormula`: the target value of the per-generator
mixer gain node, `enabled ? (gen.params.gain ?? 0.2) : 0`. -/
def enableFormulaTargetGain (params : FormulaParams) (enabled : Bool) : ℝ :=
  if enabled then params ParamKey.gain else 0

/-- The flat `EffectsState` record (src/types, effects slice): enable
flags and parameters of the six stages. `filterType` and `chorusMode`
are kept as strings. -/
structure EffectsState where
  filterOn : Bool
  filterType : String
  filterFreq : ℝ
  filterQ : ℝ
  chorusOn : Bool
  chorusMode : String
  chorusRate : ℝ
  chorusDepth : ℝ
  chorusMix : ℝ
  chorusFb : ℝ
  reverbOn : Bool
  reverbDecay : ℝ
  reverbMix : ℝ
  limiterOn : Bool
  limiterThr : ℝ
  limiterRel : ℝ
  delayOn : Bool
  delayTime : ℝ
  delayFb : ℝ
  delayMix : ℝ
  phaserOn : Bool
  phaserRate : ℝ
  phaserDepth : ℝ
  phaserStages : ℝ
  phaserFb : ℝ
  phaserMix : ℝ

/-- The six effect stage slots. -/
inductive Stage
  | filter | chorus | phaser | delay | reverb | limiter
  deriving DecidableEq

/-- The enable flag of a stage slot in an `EffectsState`. -/
def stageEnabled (s : EffectsState) : Stage → Bool
  | .filter => s.filterOn
  | .chorus => s.chorusOn
  | .phaser => s.phaserOn
  | .delay => s.delayOn
  | .reverb => s.reverbOn
  | .limiter => s.limiterOn

/-- `EffectsChain.rebuild`: the series path of stage slots wired between
the chain input and the chain output. Each `if (state.xOn)` branch of the
source connects the threaded `node` pointer to the stage's input and
advances `node` to the stage's output (or to the stage's internal dry/wet
sum node); in this embedding each taken branch appends its stage slot to
the series path, in the textual order of the source. -/
def rebuild (s : EffectsState) : List Stage :=
  let path : List Stage := []
  let path := if s.filterOn then path ++ [Stage.filter] else path
  let path := if s.chorusOn then path ++ [Stage.chorus] else path
  let path := if s.phaserOn then path ++ [Stage.phaser] else path
  let path := if s.delayOn then path ++ [Stage.delay] else path
  let path := if s.reverbOn then path ++ [Stage.reverb] else path
  let path := if s.limiterOn then path ++ [Stage.limiter] else path
  path

/-- Modelled from the spec: the fixed canonical stage order
Filter, Chorus, Phaser, Delay, Reverb, Limiter. -/
def canonicalOrder : List Stage :=
  [Stage.filter, Stage.chorus, Stage.phaser, Stage.delay, Stage.reverb,
   Stage.limiter]

/-- `Phaser.MAX_STAGES = 8`: the number of all-pass filters built in the
Phaser constructor. -/
def Phaser.maxStages : ℕ := 8

/-- The all-pass filters the Phaser constructor creates (identified by
their index); `get allFilters` returns this whole list, never a
prefix. -/
def Phaser.allFilters : List ℕ := List.range Phaser.maxStages

/-- The filters wired in series inside the phaser branch of
`EffectsChain.rebuild` (`for (const f of this.phaser.allFilters)`):
all of `allFilters` whenever the phaser is enabled. -/
def phaserWiredFilters (s : EffectsState) : List ℕ :=
  if s.phaserOn then Phaser.allFilters else []

/-- The parameter-holding audio-node state of a `Phaser` instance. -/
structure PhaserState where
  lfoFreq : ℝ
  filterFreq : Fin 8 → ℝ
  lfoGainGain : Fin 8 → ℝ
  feedbackGain : ℝ
  dryGain : ℝ
  wetGain : ℝ

/-- `Phaser.setDepth`: recenters every filter at 1000 Hz and sets every
per-stage LFO gain to `3000 * depth`. -/
def Phaser.setDepth (depth : ℝ) (st : PhaserState) : PhaserState :=
  { st with filterFreq := fun _ => 1000, lfoGainGain := fun _ => 3000 * depth }

/-- `Phaser.update(rate, depth, _stages, feedback, mix)`: the `_stages`
argument is accepted and discarded; the body calls `setRate`, `setDepth`,
`setFeedback` and `setMix`. -/
def Phaser.update (rate depth stages feedback mix : ℝ) (st : PhaserState) :
    PhaserState :=
  let _ := stages
  let st := { st with lfoFreq := rate }
  let st := Phaser.setDepth depth st
  { st with feedbackGain := feedback, dryGain := 1 - mix, wetGain := mix }

/-- The state of a `Reverb` instance: the convolver's impulse-response
buffer (`null` until first assigned), the dry/wet gains and the cursor
into the ambient `Math.random()` stream. -/
structure ReverbState where
  buffer : Option (List (List ℝ))
  dryGain : ℝ
  wetGain : ℝ
  noiseIdx : ℕ

/-- The length in frames of the impulse response:
`Math.max(1, Math.floor(sr * seconds))`. -/
def irLength (sr seconds : ℝ) : ℕ := max 1 (⌊sr * seconds⌋.toNat)

/-- The impulse length in seconds derived in `setDecay`:
`Math.min(6.0, Math.max(0.3, decay * 1.4))`. -/
def reverbSeconds (decay : ℝ) : ℝ := min 6.0 (max 0.3 (decay * 1.4))

/-- `Reverb.makeImpulseResponse(seconds, decay)`: a 2-channel buffer of
exponentially decaying uniform noise,
`data[i] = (random()*2 - 1) * exp(-t / max(1e-3, decay))` with
`t = i / sr`; channel 0's noise is drawn before channel 1's. -/
def makeImpulseResponse (sr : ℝ) (noise : ℕ → ℝ) (start : ℕ)
    (seconds decay : ℝ) : List (List ℝ) :=
  (List.range 2).map fun ch =>
    (List.range (irLength sr seconds)).map fun i =>
      (noise (start + ch * irLength sr seconds + i) * 2 - 1) *
        Real.exp (-((i : ℝ) / sr) / max 1e-3 decay)

/-- `Reverb.setDecay(decay)`: computes `seconds = reverbSeconds decay`
and unconditionally assigns a freshly generated impulse response to
`convolver.buffer`. -/
def Reverb.setDecay (sr : ℝ) (noise : ℕ → ℝ) (decay : ℝ) (st : ReverbState) :
    ReverbState :=
  { st with
    buffer := some (makeImpulseResponse sr noise st.noiseIdx
      (reverbSeconds decay) decay)
    noiseIdx := st.noiseIdx + 2 * irLength sr (reverbSeconds decay) }

/-- `Reverb.setMix(mix)`: dry gain `1 - mix`, wet gain `mix`. -/
def Reverb.setMix (mix : ℝ) (st : ReverbState) : ReverbState :=
  { st with dryGain := 1 - mix, wetGain := mix }

/-- `Reverb.update(decay, mix)`: `setDecay` then `setMix`, with no
change detection on either parameter. -/
def Reverb.update (sr : ℝ) (noise : ℕ → ℝ) (decay mix : ℝ)
    (st : ReverbState) : ReverbState :=
  Reverb.setMix mix (Reverb.setDecay sr noise decay st)

/-- `DEFAULT_FX` from the state layer: all effects off, with the
documented default parameter values. -/
def defaultFX : EffectsState :=
  { filterOn := false, filterType := "lowpass", filterFreq := 1000,
    filterQ := 0.7,
    chorusOn := false, chorusMode := "chorus", chorusRate := 0.35,
    chorusDepth := 6, chorusMix := 0.35, chorusFb := 0.15,
    reverbOn := false, reverbDecay := 2.8, reverbMix := 0.25,
    limiterOn := false, limiterThr := -12, limiterRel := 0.15,
    delayOn := false, delayTime := 0.35, delayFb := 0.4, delayMix := 0.3,
    phaserOn := false, phaserRate := 0.5, phaserDepth := 0.7,
    phaserStages := 4, phaserFb := 0.3, phaserMix := 0.5 }

/-- The series path produced by `rebuild` is the canonical stage order
restricted to the enabled stages. -/
theorem rebuild_eq_filter (s : EffectsState) :
    rebuild s = canonicalOrder.filter (fun st => stageEnabled s st) := by
  rcases s with ⟨fOn, _, _, _, cOn, _, _, _, _, _, rOn, _, _, lOn, _, _,
    dOn, _, _, _, pOn, _, _, _, _, _⟩
  cases fOn <;> cases cOn <;> cases pOn <;> cases dOn <;> cases rOn <;>
    cases lOn <;> rfl

/-- Every stage occurs in the canonical order exactly once. -/
theorem count_canonicalOrder (st : Stage) : canonicalOrder.count st = 1 := by
  cases st <;> rfl

/-- C4: for every subset of enabled stages, a routing rebuild produces a
single series path from chain input to chain output that equals the fixed
canonical order Filter, Chorus, Phaser, Delay, Reverb, Limiter restricted
to the enabled stages; every enabled stage appears exactly once in the
path and every disabled stage is entirely absent. -/
theorem c4_rebuild_canonical_series (s : EffectsState) :
    rebuild s = canonicalOrder.filter (fun st => stageEnabled s st) ∧
    (∀ st : Stage,
      (rebuild s).count st = if stageEnabled s st then 1 else 0) := by
  refine ⟨rebuild_eq_filter s, fun st => ?_⟩
  by_cases h : stageEnabled s st = true
  · rw [if_pos h, rebuild_eq_filter s, List.count_filter (by simpa using h)]
    exact count_canonicalOrder st
  · rw [if_neg h, rebuild_eq_filter s, List.count_eq_zero]
    simp [List.mem_filter, h]

/-- C6: the Phaser's stage-count parameter never changes the number of
all-pass filters wired into the chain (always `MAX_STAGES = 8`):
the wired chain has length 8 whenever the phaser is enabled, the wired
chain is independent of the `phaserStages` field, and `Phaser.update`
discards its stage-count argument entirely, so the parameter's only
possible influence on the output is via the depth-scaling path. -/
theorem c6_phaser_stage_count_inert :
    (∀ s : EffectsState, s.phaserOn = true →
      (phaserWiredFilters s).length = 8) ∧
    (∀ (s : EffectsState) (x : ℝ),
      phaserWiredFilters { s with phaserStages := x } = phaserWiredFilters s) ∧
    (∀ (rate depth s1 s2 fb mix : ℝ) (st : PhaserState),
      Phaser.update rate depth s1 fb mix st =
        Phaser.update rate depth s2 fb mix st) := by
  refine ⟨fun s h => ?_, fun s x => rfl, fun _ _ _ _ _ _ _ => rfl⟩
  simp [phaserWiredFilters, h, Phaser.allFilters, Phaser.maxStages]

/-- Witness for C6 at a concrete effects state. -/
theorem c6_witness :
    (phaserWiredFilters { defaultFX with phaserOn := true }).length = 8 :=
  c6_phaser_stage_count_inert.1 { defaultFX with phaserOn := true } rfl

/-- C9: after `resetState`, the Lorenz state is exactly
`(lx, ly, lz) = (0.1, 0, 0)` and the Rossler state is exactly
`(rx, ry, rz) = (0.1, 0, 0)`, from any prior state. -/
theorem c9_reset_attractor_coords (noise : ℕ → ℝ) (st : GenState) :
    (resetState noise st).lx = 0.1 ∧ (resetState noise st).ly = 0 ∧
    (resetState noise st).lz = 0 ∧ (resetState noise st).rx = 0.1 ∧
    (resetState noise st).ry = 0 ∧ (resetState noise st).rz = 0 := by
  refine ⟨?_, ?_, ?_, rfl, rfl, rfl⟩ <;>
    simp only [resetState, initKS] <;> split_ifs <;> rfl

/-- C10: a `set` message only merges the given overrides into the
parameter record; the engine time, the shared phase accumulator, the
logistic value, the Lorenz and Rossler coordinates, the noise-filter
accumulators, the velvet-noise counters, the Shepard phase bank and the
Karplus-Strong buffer and indices are all unchanged. -/
theorem c10_set_message_only_params (noise : ℕ → ℝ)
    (updates : List (ParamKey × ℝ)) (st : GenState) :
    (onMessage noise (.set updates) st).p = assignParams st.p updates ∧
    (onMessage noise (.set updates) st).t = st.t ∧
    (onMessage noise (.set updates) st).phase = st.phase ∧
    (onMessage noise (.set updates) st).logi = st.logi ∧
    (onMessage noise (.set updates) st).lx = st.lx ∧
    (onMessage noise (.set updates) st).ly = st.ly ∧
    (onMessage noise (.set updates) st).lz = st.lz ∧
    (onMessage noise (.set updates) st).nlp = st.nlp ∧
    (onMessage noise (.set updates) st).pinkB0 = st.pinkB0 ∧
    (onMessage noise (.set updates) st).pinkB1 = st.pinkB1 ∧
    (onMessage noise (.set updates) st).pinkB2 = st.pinkB2 ∧
    (onMessage noise (.set updates) st).pinkB3 = st.pinkB3 ∧
    (onMessage noise (.set updates) st).pinkB4 = st.pinkB4 ∧
    (onMessage noise (.set updates) st).pinkB5 = st.pinkB5 ∧
    (onMessage noise (.set updates) st).pinkB6 = st.pinkB6 ∧
    (onMessage noise (.set updates) st).brownVal = st.brownVal ∧
    (onMessage noise (.set updates) st).velvetCounter = st.velvetCounter ∧
    (onMessage noise (.set updates) st).velvetNext = st.velvetNext ∧
    (onMessage noise (.set updates) st).shepardPhases = st.shepardPhases ∧
    (onMessage noise (.set updates) st).shepardT = st.shepardT ∧
    (onMessage noise (.set updates) st).ksBuf = st.ksBuf ∧
    (onMessage noise (.set updates) st).ksIdx = st.ksIdx ∧
    (onMessage noise (.set updates) st).ksN = st.ksN ∧
    (onMessage noise (.set updates) st).noiseIdx = st.noiseIdx ∧
    (onMessage noise (.set updates) st).formula = st.formula ∧
    (onMessage noise (.set updates) st).sr = st.sr := by
  repeat' constructor

/-- A generator state as the worklet constructor builds it (prior to the
constructor's `initKS(true)` call), for a given formula id, sample rate
and merged parameter record. -/
def mkState (formula : String) (sr : ℝ) (params : FormulaParams) :
    GenState :=
  { formula := formula, sr := sr, t := 0, phase := 0, logi := 0.33,
    lx := 0.1, ly := 0, lz := 0, ksBuf := none, ksIdx := 0, ksN := 0,
    nlp := 0, pinkB0 := 0, pinkB1 := 0, pinkB2 := 0, pinkB3 := 0,
    pinkB4 := 0, pinkB5 := 0, pinkB6 := 0, brownVal := 0,
    velvetCounter := 0, velvetNext := 0, rx := 0.1, ry := 0, rz := 0,
    shepardPhases := List.replicate 10 0, shepardT := 0, p := params,
    noiseIdx := 0 }

/-- On a formula id that matches none of the switch cases, the switch
falls through to the default branch: no state change and raw sample 0. -/
theorem formulaSample_of_not_recognized (noise : ℕ → ℝ) (i : ℕ)
    (st : GenState) (h : st.formula ∉ recognizedIds) :
    formulaSample noise i st = (st, 0) := by
  unfold formulaSample
  split <;> simp_all [recognizedIds]

/-- On an unrecognized formula id, one loop iteration writes the sample
`0 * gain = 0` and only advances the time and wraps the phase. -/
theorem sampleStep_of_not_recognized (noise : ℕ → ℝ) (i : ℕ)
    (st : GenState) (h : st.formula ∉ recognizedIds) :
    (sampleStep noise i st).1.formula = st.formula ∧
    (sampleStep noise i st).2 = 0 := by
  unfold sampleStep
  rw [formulaSample_of_not_recognized noise i st h]
  simp

/-- Block-loop invariant for an unrecognized formula id: every sample
appended to the output channel is 0. -/
theorem foldl_blockStep_zero (noise : ℕ → ℝ) :
    ∀ (l : List ℕ) (st : GenState) (acc : List ℝ),
      st.formula ∉ recognizedIds → (∀ y ∈ acc, y = 0) →
      ∀ y ∈ (l.foldl (blockStep noise) (st, acc)).2, y = 0 := by
  intro l
  induction l with
  | nil => intro st acc _ hacc; simpa using hacc
  | cons i l ih =>
      intro st acc h hacc
      rw [List.foldl_cons]
      have h2 := sampleStep_of_not_recognized noise i st h
      show ∀ y ∈ (l.foldl (blockStep noise)
        ((sampleStep noise i st).1, acc ++ [(sampleStep noise i st).2])).2,
        y = 0
      apply ih
      · rw [h2.1]; exact h
      · intro y hy
        rcases List.mem_append.1 hy with hy | hy
        · exact hacc y hy
        · rw [List.mem_singleton] at hy
          rw [hy, h2.2]

/-- C8: for any formula id that matches none of the recognized algorithm
cases, every sample written by `process` is exactly 0, and `process`
still returns `true` (the processor stays alive). -/
theorem c8_unknown_id_silent (noise : ℕ → ℝ) (st : GenState) (n : ℕ)
    (h : st.formula ∉ recognizedIds) :
    (∀ y ∈ (processBlock noise st n).2.1, y = 0) ∧
    (processBlock noise st n).2.2 = true := by
  constructor
  · intro y hy
    simp only [processBlock] at hy
    exact foldl_blockStep_zero noise (List.range n) st [] h (by simp) y hy
  · rfl

/-- Witness for C8: the documented but unimplemented id `bitcrush` is not
among the switch cases, so a two-frame block is all zeros and the
callback returns `true`. -/
theorem c8_witness :
    "bitcrush" ∉ recognizedIds ∧
    (∀ y ∈ (processBlock (fun _ => 0)
      (mkState "bitcrush" 44100 defaultParams) 2).2.1, y = 0) ∧
    (processBlock (fun _ => 0)
      (mkState "bitcrush" 44100 defaultParams) 2).2.2 = true := by
  have hmem : "bitcrush" ∉ recognizedIds := by decide
  exact ⟨hmem, c8_unknown_id_silent (fun _ => 0)
    (mkState "bitcrush" 44100 defaultParams) 2 hmem⟩

/-- Modelled from the spec: the documented `am` formula (absent from the
worklet's switch), the product of two independent sinusoids at `f1` and
`f2`: `sin(2π·f1·t) · sin(2π·f2·t)`. -/
def specAmSample (f1 f2 t : ℝ) : ℝ :=
  Real.sin (twoPi * f1 * t) * Real.sin (twoPi * f2 * t)

/-- C1: the switch in `process` has no `am` case, so for the formula id
`am` the generator's raw sample is 0 for every parameter record, sample
rate, engine time and loop index — while the documented product of the
two sinusoids is 1 (not 0) at `f1 = f2 = 1`, `t = 1/4`. -/
theorem c1_am_case_missing :
    (∀ (params : FormulaParams) (srr tt : ℝ) (noise : ℕ → ℝ) (i : ℕ),
      (formulaSample noise i
        { mkState "am" srr params with t := tt }).2 = 0) ∧
    specAmSample 1 1 (1 / 4) = 1 := by
  constructor
  · intro params srr tt noise i
    have hmem : ("am" : String) ∉ recognizedIds := by decide
    rw [formulaSample_of_not_recognized noise i _ hmem]
  · show Real.sin (twoPi * 1 * (1 / 4)) * Real.sin (twoPi * 1 * (1 / 4)) = 1
    have h1 : twoPi * 1 * (1 / 4) = Real.pi / 2 := by unfold twoPi; ring
    rw [h1, Real.sin_pi_div_two, mul_one]

/-- A concrete FM generator state: `fc = 1`, `I = 0`, `gain = 1/2`,
engine time `t = 1/4`. -/
def stFM : GenState :=
  { mkState "fm" 44100 (assignParams defaultParams
      [(ParamKey.fc, 1), (ParamKey.I, 0), (ParamKey.gain, 1 / 2)]) with
    t := 1 / 4 }

/-- C2 counterexample: at `stFM` the raw engine sample is 1 but the
sample the generator writes to its output channel is `1/2 = 1 · gain`:
the generator does scale its own output by its `gain` parameter. -/
theorem c2_counterexample :
    (formulaSample (fun _ => 0) 0 stFM).2 = 1 ∧
    (sampleStep (fun _ => 0) 0 stFM).2 = 1 / 2 ∧
    (sampleStep (fun _ => 0) 0 stFM).2 ≠ (formulaSample (fun _ => 0) 0 stFM).2 := by
  have hval : Real.sin (twoPi * 1 * (1 / 4) +
      0 * Real.sin (twoPi * 2 * (1 / 4))) = 1 := by
    have h1 : twoPi * 1 * (1 / 4) + 0 * Real.sin (twoPi * 2 * (1 / 4)) =
        Real.pi / 2 := by unfold twoPi; ring
    rw [h1, Real.sin_pi_div_two]
  have hraw : (formulaSample (fun _ => 0) 0 stFM).2 =
      Real.sin (twoPi * 1 * (1 / 4) + 0 * Real.sin (twoPi * 2 * (1 / 4))) := rfl
  have hstep : (sampleStep (fun _ => 0) 0 stFM).2 =
      Real.sin (twoPi * 1 * (1 / 4) + 0 * Real.sin (twoPi * 2 * (1 / 4))) *
        (1 / 2) := rfl
  refine ⟨hraw.trans hval, ?_, ?_⟩
  · rw [hstep, hval, one_mul]
  · rw [hstep, hraw, hval]
    norm_num

/-- `initKS` never modifies the parameter record. -/
theorem initKS_preserves_p (noise : ℕ → ℝ) (force : Bool) (st : GenState) :
    (initKS noise force st).p = st.p := by
  simp only [initKS]
  split_ifs <;> rfl

/-- `formulaSample` never modifies the parameter record. -/
theorem formulaSample_preserves_p (noise : ℕ → ℝ) (i : ℕ) (st : GenState) :
    (formulaSample noise i st).1.p = st.p := by
  unfold formulaSample
  split <;> first
    | rfl
    | (split_ifs <;> rfl)
    | exact initKS_preserves_p noise false st

/-- C2 amended: every sample the generator writes equals the raw engine
sample multiplied by the generator's own `gain` parameter
(`ch0[i] = x * (p.gain ?? 0.2)`), and the mixer additionally applies the
same `gain` value when the formula is enabled (`enableFormula` sets the
per-generator gain node to `params.gain`). -/
theorem c2_amended (noise : ℕ → ℝ) (i : ℕ) (st : GenState) :
    (sampleStep noise i st).2 =
      (formulaSample noise i st).2 * st.p ParamKey.gain ∧
    ∀ params : FormulaParams,
      enableFormulaTargetGain params true = params ParamKey.gain := by
  constructor
  · show (formulaSample noise i st).2 *
      (formulaSample noise i st).1.p ParamKey.gain = _
    rw [formulaSample_preserves_p]
  · intro params; rfl

/-- A deterministic stand-in for the `Math.random()` stream. -/
def natNoise : ℕ → ℝ := fun n => n

/-- A freshly constructed `Reverb` (no impulse response assigned yet,
gains at their node defaults). -/
def reverbSt0 : ReverbState :=
  { buffer := none, dryGain := 1, wetGain := 1, noiseIdx := 0 }

/-- C5 counterexample: with `sr = 1`, updating with `decay = 1, mix = 0.3`
and then again with the *same* decay and only the mix changed to `0.7`,
the convolver's impulse-response buffer changes (`[[-1],[1]]` to
`[[3],[5]]` under the deterministic noise stream): a mix-only update does
not leave the buffer unchanged, because `Reverb.update` unconditionally
regenerates it. -/
theorem c5_counterexample :
    (Reverb.update 1 natNoise 1 0.3 reverbSt0).buffer = some [[-1], [1]] ∧
    (Reverb.update 1 natNoise 1 0.7
      (Reverb.update 1 natNoise 1 0.3 reverbSt0)).buffer = some [[3], [5]] ∧
    (Reverb.update 1 natNoise 1 0.7
        (Reverb.update 1 natNoise 1 0.3 reverbSt0)).buffer ≠
      (Reverb.update 1 natNoise 1 0.3 reverbSt0).buffer := by
  have hsec : reverbSeconds 1 = 1.4 := by
    unfold reverbSeconds
    rw [show (1 : ℝ) * 1.4 = 1.4 by norm_num,
      max_eq_right (by norm_num), min_eq_right (by norm_num)]
  have hfloor : ⌊(1 : ℝ) * 1.4⌋ = 1 := by
    rw [Int.floor_eq_iff]
    norm_num
  have hlen : irLength 1 (reverbSeconds 1) = 1 := by
    unfold irLength
    rw [hsec, hfloor]
    rfl
  have hb1 : (Reverb.update 1 natNoise 1 0.3 reverbSt0).buffer =
      some [[-1], [1]] := by
    show (Reverb.setDecay 1 natNoise 1 reverbSt0).buffer = some [[-1], [1]]
    unfold Reverb.setDecay makeImpulseResponse
    rw [hlen]
    simp [natNoise, reverbSt0, List.range_succ]
    norm_num [Real.exp_zero]
  have hidx : (Reverb.update 1 natNoise 1 0.3 reverbSt0).noiseIdx = 2 := by
    show (Reverb.setDecay 1 natNoise 1 reverbSt0).noiseIdx = 2
    unfold Reverb.setDecay
    rw [hlen]
    rfl
  have hb2 : (Reverb.update 1 natNoise 1 0.7
      (Reverb.update 1 natNoise 1 0.3 reverbSt0)).buffer = some [[3], [5]] := by
    show (Reverb.setDecay 1 natNoise 1
      (Reverb.update 1 natNoise 1 0.3 reverbSt0)).buffer = some [[3], [5]]
    unfold Reverb.setDecay makeImpulseResponse
    rw [hlen, hidx]
    simp [natNoise, List.range_succ]
    norm_num [Real.exp_zero]
  refine ⟨hb1, hb2, ?_⟩
  rw [hb1, hb2]
  norm_num

/-- C5 amended: `Reverb.update` regenerates the impulse response on every
call — the buffer afterwards is the freshly synthesized response drawn
from the current noise cursor, and depends only on the decay parameter
and the noise cursor, never on the previous buffer (in particular a
mix-only change still rebuilds it). -/
theorem c5_amended (sr : ℝ) (noise : ℕ → ℝ) (decay mix : ℝ)
    (st st2 : ReverbState) (h : st.noiseIdx = st2.noiseIdx) :
    (Reverb.update sr noise decay mix st).buffer =
      some (makeImpulseResponse sr noise st.noiseIdx
        (reverbSeconds decay) decay) ∧
    (Reverb.update sr noise decay mix st).buffer =
      (Reverb.update sr noise decay mix st2).buffer := by
  constructor
  · rfl
  · show (Reverb.setDecay sr noise decay st).buffer =
      (Reverb.setDecay sr noise decay st2).buffer
    unfold Reverb.setDecay
    rw [h]

/-- Witness for C5's amended theorem at concrete inputs: two reverbs at
the same noise cursor but different previous buffers produce the same
freshly regenerated buffer. -/
theorem c5_amended_witness :
    (Reverb.update 2 natNoise 3 0.4 reverbSt0).buffer =
      some (makeImpulseResponse 2 natNoise 0 (reverbSeconds 3) 3) ∧
    (Reverb.update 2 natNoise 3 0.4 reverbSt0).buffer =
      (Reverb.update 2 natNoise 3 0.4
        { reverbSt0 with buffer := some [[7]] }).buffer :=
  c5_amended 2 natNoise 3 0.4 reverbSt0
    { reverbSt0 with buffer := some [[7]] } rfl

/-- The logistic branch of the switch: the recurrence is applied exactly
when the block-local loop index `i` satisfies `i % step = 0`, with the
result clamped to `[0, 1]`. -/
theorem formulaSample_logistic (noise : ℕ → ℝ) (i : ℕ) (st : GenState) :
    (formulaSample noise i { st with formula := "logistic" }).1.logi =
      if i % logisticStep st = 0 then
        clamp (st.p ParamKey.r * st.logi * (1 - st.logi)) 0 1
      else st.logi := rfl

/-- A logistic generator at `sr = 10`, `lfoHz = 2`, `r = 2` (so
`step = floor(10/2) = 5`). -/
def stLog : GenState :=
  mkState "logistic" 10
    (assignParams defaultParams [(ParamKey.lfoHz, 2), (ParamKey.r, 2)])

/-- C3: with `step = 5`, processing two one-frame blocks applies the
logistic recurrence twice — once at global sample 0 and once at global
sample 1 — because the update condition uses the *block-local* loop
index, which restarts at 0 in every block. Under the claimed cadence
(once every `floor(sr/lfoHz) = 5` globally produced samples) the value
after the second block would still be `0.4422`; the code produces
`0.49331832`. -/
theorem c3_update_at_every_block_start :
    logisticStep stLog = 5 ∧
    (processBlock natNoise stLog 1).1.logi = 0.4422 ∧
    (processBlock natNoise (processBlock natNoise stLog 1).1 1).1.logi =
      0.49331832 ∧
    (processBlock natNoise (processBlock natNoise stLog 1).1 1).1.logi ≠
      (processBlock natNoise stLog 1).1.logi := by
  have hsr : stLog.sr = 10 := rfl
  have hlfo : stLog.p ParamKey.lfoHz = 2 := rfl
  have hstep : logisticStep stLog = 5 := by
    unfold logisticStep
    rw [hsr, hlfo, max_eq_right (by norm_num : (1e-3 : ℝ) ≤ 2),
      show (10 : ℝ) / 2 = 5 by norm_num,
      show ⌊(5 : ℝ)⌋ = 5 by rw [Int.floor_eq_iff]; norm_num]
    rfl
  have hclamp1 : clamp (2 * 0.33 * (1 - 0.33)) 0 1 = 0.4422 := by
    unfold clamp
    rw [min_eq_right (by norm_num), max_eq_right (by norm_num)]
    norm_num
  have h1 : (processBlock natNoise stLog 1).1.logi = 0.4422 := by
    have e : (processBlock natNoise stLog 1).1.logi =
        if (0 : ℕ) % logisticStep stLog = 0 then
          clamp (2 * 0.33 * (1 - 0.33)) 0 1
        else 0.33 :=
      formulaSample_logistic natNoise 0 stLog
    rw [e, Nat.zero_mod, if_pos rfl, hclamp1]
  have hclamp2 : clamp (2 * 0.4422 * (1 - 0.4422)) 0 1 = 0.49331832 := by
    unfold clamp
    rw [min_eq_right (by norm_num), max_eq_right (by norm_num)]
    norm_num
  have hp1 : (processBlock natNoise stLog 1).1.p ParamKey.r = 2 := rfl
  have h2 : (processBlock natNoise
      (processBlock natNoise stLog 1).1 1).1.logi = 0.49331832 := by
    have e : (processBlock natNoise (processBlock natNoise stLog 1).1 1).1.logi =
        if (0 : ℕ) % logisticStep (processBlock natNoise stLog 1).1 = 0 then
          clamp ((processBlock natNoise stLog 1).1.p ParamKey.r *
            (processBlock natNoise stLog 1).1.logi *
            (1 - (processBlock natNoise stLog 1).1.logi)) 0 1
        else (processBlock natNoise stLog 1).1.logi :=
      formulaSample_logistic natNoise 0 (processBlock natNoise stLog 1).1
    rw [e, Nat.zero_mod, if_pos rfl, hp1, h1, hclamp2]
  refine ⟨hstep, h1, h2, ?_⟩
  rw [h1, h2]
  norm_num

/-- The harmonic loop `for (k = 1; k <= N; k++) s += g(k)` as a sum over
`k ∈ [1, N]`. -/
theorem foldl_range_add_eq_sum_Icc (g : ℕ → ℝ) (n : ℕ) :
    (List.range n).foldl (fun s j => s + g (j + 1)) 0 =
      ∑ k ∈ Finset.Icc 1 n, g k := by
  induction n with
  | zero => simp
  | succ n ih =>
      rw [List.range_succ, List.foldl_append, ih,
        Finset.sum_Icc_succ_top (Nat.succ_le_succ (Nat.zero_le n))]
      rfl

/-- The additive branch of the switch, as a closed-form harmonic sum:
note the `2π` factor on `move` inside the amplitude sinusoid. -/
theorem formulaSample_additive (noise : ℕ → ℝ) (i : ℕ) (st : GenState) :
    (formulaSample noise i { st with formula := "additive" }).2 =
      (∑ k ∈ Finset.Icc 1 (additiveN st),
        (1 / (k : ℝ)) *
          Real.sin (twoPi * st.p ParamKey.move * st.t + (k : ℝ)) *
          Real.sin (twoPi * ((k : ℝ) * st.p ParamKey.fund) * st.t)) *
        (1.0 / Real.logb 2 ((additiveN st : ℝ) + 1)) :=
  congrArg (fun z => z * (1.0 / Real.logb 2 ((additiveN st : ℝ) + 1)))
    (foldl_range_add_eq_sum_Icc
      (fun k => (1 / (k : ℝ)) *
        Real.sin (twoPi * st.p ParamKey.move * st.t + (k : ℝ)) *
        Real.sin (twoPi * ((k : ℝ) * st.p ParamKey.fund) * st.t))
      (additiveN st))

/-- C7 amended: for the formula id `additive`, each raw sample equals the
sum over harmonics `k = 1..N` of
`(1/k) · sin(2π·move·t + k) · sin(2π·k·fund·t)` (with the `2π` factor on
`move`, unlike the spec's formula) scaled by `1/log2(N+1)`, where
`N = max(1, floor(p.N))`. -/
theorem c7_amended_additive_formula (noise : ℕ → ℝ) (i : ℕ) (st : GenState) :
    (formulaSample noise i { st with formula := "additive" }).2 =
      (∑ k ∈ Finset.Icc 1 (additiveN st),
        (1 / (k : ℝ)) *
          Real.sin (twoPi * st.p ParamKey.move * st.t + (k : ℝ)) *
          Real.sin (twoPi * ((k : ℝ) * st.p ParamKey.fund) * st.t)) *
        (1.0 / Real.logb 2 ((additiveN st : ℝ) + 1)) :=
  formulaSample_additive noise i st

/-- Modelled from the spec: the claimed additive formula, whose amplitude
sinusoid is `sin(move·t + k)` with no `2π` factor on `move`. -/
def specAdditiveSample (fund : ℝ) (n : ℕ) (move t : ℝ) : ℝ :=
  (∑ k ∈ Finset.Icc 1 n,
    (1 / (k : ℝ)) * Real.sin (move * t + (k : ℝ)) *
      Real.sin (twoPi * ((k : ℝ) * fund) * t)) *
    (1 / Real.logb 2 ((n : ℝ) + 1))

/-- An additive generator state with `fund = 1`, `N = 1`, `move = 2` at
engine time `t = 1/4`. -/
def stAdd : GenState :=
  { mkState "additive" 44100 (assignParams defaultParams
      [(ParamKey.fund, 1), (ParamKey.N, 1), (ParamKey.move, 2)]) with
    t := 1 / 4 }

/-- C7 counterexample: at `fund = 1`, `N = 1`, `move = 2`, `t = 1/4` the
code produces `sin(2π·2·(1/4) + 1)·sin(π/2) = -sin 1 < 0`, while the
claimed formula gives `sin(2·(1/4) + 1)·sin(π/2) = sin(3/2) > 0`. -/
theorem c7_counterexample :
    (formulaSample (fun _ => 0) 0 stAdd).2 = -Real.sin 1 ∧
    specAdditiveSample 1 1 2 (1 / 4) = Real.sin (3 / 2) ∧
    -Real.sin 1 ≠ Real.sin (3 / 2) := by
  have hN : additiveN stAdd = 1 := by
    unfold additiveN
    rw [show stAdd.p ParamKey.N = 1 from rfl, Int.floor_one]
    rfl
  have hlogb : Real.logb 2 2 = 1 := Real.logb_self_eq_one (by norm_num)
  have hsin1 : Real.sin (twoPi * 2 * (1 / 4) + (1 : ℕ)) = -Real.sin 1 := by
    rw [show (twoPi * 2 * (1 / 4) + ((1 : ℕ) : ℝ)) = 1 + Real.pi by
      unfold twoPi; push_cast; ring]
    exact Real.sin_add_pi 1
  have hsin2 : Real.sin (twoPi * (((1 : ℕ) : ℝ) * 1) * (1 / 4)) = 1 := by
    rw [show (twoPi * (((1 : ℕ) : ℝ) * 1) * (1 / 4)) = Real.pi / 2 by
      unfold twoPi; push_cast; ring]
    exact Real.sin_pi_div_two
  have hpos1 : 0 < Real.sin 1 :=
    Real.sin_pos_of_pos_of_lt_pi (by norm_num)
      (by linarith [Real.pi_gt_three])
  have hpos2 : 0 < Real.sin (3 / 2) :=
    Real.sin_pos_of_pos_of_lt_pi (by norm_num)
      (by linarith [Real.pi_gt_three])
  refine ⟨?_, ?_, by intro h; linarith⟩
  · have h : (formulaSample (fun _ => (0 : ℝ)) 0 stAdd).2 =
        (∑ k ∈ Finset.Icc 1 (additiveN stAdd),
          (1 / (k : ℝ)) * Real.sin (twoPi * 2 * (1 / 4) + (k : ℝ)) *
            Real.sin (twoPi * ((k : ℝ) * 1) * (1 / 4))) *
          (1.0 / Real.logb 2 ((additiveN stAdd : ℝ) + 1)) :=
      formulaSample_additive (fun _ => 0) 0 stAdd
    rw [h, hN, Finset.Icc_self, Finset.sum_singleton, hsin1, hsin2]
    rw [Nat.cast_one, show (1 : ℝ) + 1 = 2 by norm_num, hlogb]
    norm_num
  · unfold specAdditiveSample
    rw [Finset.Icc_self, Finset.sum_singleton, hsin2]
    rw [Nat.cast_one, show (1 : ℝ) + 1 = 2 by norm_num, hlogb]
    rw [show (2 * (1 / 4 : ℝ) + (1 : ℝ)) = 3 / 2 by norm_num]
    norm_num

end

end FormulasAudioLab
